import Mathlib

/-!
# Verification of the mtgdecks statistics and form logic

A shallow embedding of the derived-statistics arithmetic, ranking, inactivity
detection, winner validation, and UI-state invariants of the mtgdecks
application, together with theorems settling the specification's claims.

JavaScript arrays become `List`, objects with string keys (in insertion order)
become association lists, `Array.prototype.sort` (stable, per the ECMAScript
specification) becomes `List.insertionSort` (which is stable), timestamps are
UTC epoch milliseconds as `Nat` (ISO-8601 string comparison on uniform UTC
strings agrees with numeric comparison), and `Math.round` on the nonnegative
finite values arising here is `⌊q + 1/2⌋` over `ℚ`.
-/

/-- Model of JavaScript `Math.round` on the nonnegative finite rationals that
occur in the win-rate computations: round half up, `⌊q + 1/2⌋`. -/
def jsRound (q : ℚ) : ℤ := ⌊q + 1 / 2⌋

namespace SortFacts

/-! Generic facts about `List.insertionSort`, the model of the stable
`Array.prototype.sort`.  A JavaScript comparator `(a, b) => key(b) - key(a)`
(descending) corresponds to the relation `byDesc key`; `(a, b) => key(a) -
key(b)` (ascending) to `byAsc key`. -/

variable {α : Type}

/-- Descending comparison by a numeric key: `a` may come before `b`. -/
def byDesc (key : α → Nat) (a b : α) : Prop := key b ≤ key a

/-- Ascending comparison by a numeric key: `a` may come before `b`. -/
def byAsc (key : α → Nat) (a b : α) : Prop := key a ≤ key b

instance (key : α → Nat) : DecidableRel (byDesc key) :=
  fun a b => inferInstanceAs (Decidable (key b ≤ key a))

instance (key : α → Nat) : DecidableRel (byAsc key) :=
  fun a b => inferInstanceAs (Decidable (key a ≤ key b))

instance (key : α → Nat) : IsTotal α (byDesc key) :=
  ⟨fun a b => (Nat.le_total (key b) (key a)).imp id id⟩

instance (key : α → Nat) : IsTotal α (byAsc key) :=
  ⟨fun a b => (Nat.le_total (key a) (key b)).imp id id⟩

instance (key : α → Nat) : IsTrans α (byDesc key) :=
  ⟨fun _ _ _ hab hbc => Nat.le_trans hbc hab⟩

instance (key : α → Nat) : IsTrans α (byAsc key) :=
  ⟨fun _ _ _ hab hbc => Nat.le_trans hab hbc⟩

/-- The first element of a list that is at least as good (under `r`) as every
other element: the element a stable sort by `r` places at the head. -/
def firstBest (r : α → α → Prop) [DecidableRel r] : List α → Option α
  | [] => none
  | a :: l =>
    match firstBest r l with
    | none => some a
    | some b => if r a b then some a else some b

end SortFacts

namespace PrivateRouteComponent

/-! Embedding of `src/components/PrivateRoute.tsx`. -/

/-- A session user object from the authentication context. -/
structure SessionUser where
  id : String
deriving DecidableEq

/-- What the `PrivateRoute` component renders. -/
inductive RenderResult where
  | loadingView
  | navigateTo (path : String)
  | childContent
deriving DecidableEq

/-- `PrivateRoute`: if `loading`, a loading view; else if no `user`, a
`Navigate` to `/login`; else the protected children. -/
def PrivateRoute (loading : Bool) (user : Option SessionUser) : RenderResult :=
  if loading then .loadingView
  else if user.isNone then .navigateTo "/login"
  else .childContent

end PrivateRouteComponent

namespace NewDeckModal

/-! Embedding of the color-identity state logic shared verbatim by
`src/components/NewDeckModal.tsx` and the EditDeckModal component. -/

/-- The six-flag color identity held in the deck modals' `colors` state. -/
structure ColorIdentity where
  white : Bool
  blue : Bool
  black : Bool
  red : Bool
  green : Bool
  colorless : Bool
deriving DecidableEq

/-- A key of `ColorIdentity` (`keyof ColorIdentity` in the source). -/
inductive ColorKey where
  | white | blue | black | red | green | colorless
deriving DecidableEq

/-- `handleColorChange` of `NewDeckModal`: toggling `colorless` clears the five
colors; toggling a color clears `colorless`. -/
def handleColorChange (colors : ColorIdentity) : ColorKey → ColorIdentity
  | .colorless =>
    { white := false, blue := false, black := false, red := false,
      green := false, colorless := !colors.colorless }
  | .white => { colors with white := !colors.white, colorless := false }
  | .blue => { colors with blue := !colors.blue, colorless := false }
  | .black => { colors with black := !colors.black, colorless := false }
  | .red => { colors with red := !colors.red, colorless := false }
  | .green => { colors with green := !colors.green, colorless := false }

/-- The mutual-exclusion invariant: if `colorless` is set, no color is. -/
def colorlessExclusive (c : ColorIdentity) : Prop :=
  c.colorless = true →
    (c.white = false ∧ c.blue = false ∧ c.black = false ∧
      c.red = false ∧ c.green = false)

instance (c : ColorIdentity) : Decidable (colorlessExclusive c) := by
  unfold colorlessExclusive; infer_instance

end NewDeckModal

namespace EditDeckModal

/-! Embedding of the `handleColorChange` of the EditDeckModal component, which
is textually identical to the one in `NewDeckModal.tsx`. -/

/-- `handleColorChange` of `EditDeckModal`. -/
def handleColorChange (colors : NewDeckModal.ColorIdentity) :
    NewDeckModal.ColorKey → NewDeckModal.ColorIdentity
  | .colorless =>
    { white := false, blue := false, black := false, red := false,
      green := false, colorless := !colors.colorless }
  | .white => { colors with white := !colors.white, colorless := false }
  | .blue => { colors with blue := !colors.blue, colorless := false }
  | .black => { colors with black := !colors.black, colorless := false }
  | .red => { colors with red := !colors.red, colorless := false }
  | .green => { colors with green := !colors.green, colorless := false }

end EditDeckModal

namespace NewGameModal

/-! Embedding of the participant-list state and submission logic of the
NewGameModal component. -/

/-- An entry of the `participants` state. -/
structure GameParticipant where
  playerId : String
  deckId : String
  won : Bool
deriving DecidableEq

/-- `handleAddPlayer`: appends a non-winning participant unless the player is
already in the list. -/
def handleAddPlayer (participants : List GameParticipant)
    (playerId deckId : String) : List GameParticipant :=
  if participants.any (fun p => p.playerId == playerId) then participants
  else participants ++ [{ playerId := playerId, deckId := deckId, won := false }]

/-- `handleRemovePlayer`: removes all entries of the given player. -/
def handleRemovePlayer (participants : List GameParticipant)
    (playerId : String) : List GameParticipant :=
  participants.filter (fun p => !(p.playerId == playerId))

/-- `handleWinStateChange`: sets the win flag of the given player and clears
the win flag of every other participant. -/
def handleWinStateChange (participants : List GameParticipant)
    (playerId : String) (won : Bool) : List GameParticipant :=
  participants.map fun p =>
    if p.playerId = playerId then { p with won := won } else { p with won := false }

/-- `handleDeckChange`: changes the given player's deck. -/
def handleDeckChange (participants : List GameParticipant)
    (playerId deckId : String) : List GameParticipant :=
  participants.map fun p =>
    if p.playerId = playerId then { p with deckId := deckId } else p

/-- The winners of a participant list (`participants.filter(p => p.won)`). -/
def winnersOf (participants : List GameParticipant) : List GameParticipant :=
  participants.filter (fun p => p.won)

/-- `hasWinner` (`participants.some(p => p.won)`). -/
def hasWinner (participants : List GameParticipant) : Bool :=
  participants.any (fun p => p.won)

/-- The `disabled` attribute of the Create Game button:
`loading || submitting || !hasWinner || participants.length < 2`. -/
def createGameDisabled (loading submitting : Bool)
    (participants : List GameParticipant) : Bool :=
  loading || submitting || !hasWinner participants ||
    decide (participants.length < 2)

/-- The `games` row inserted by `handleSubmit`. -/
structure GameInsertRow where
  played_at : Nat
  location : Option String
deriving DecidableEq

/-- A `game_participants` row inserted by `handleSubmit`. -/
structure ParticipantInsertRow where
  game_id : String
  player_id : String
  deck_id : String
  won : Bool
deriving DecidableEq

/-- `handleSubmit`: throws unless exactly one participant has won; otherwise
inserts one game row and one participant row per participant.  `gameId` is the
id the backend assigns to the inserted game. -/
def handleSubmit (playedAt : Nat) (location : String) (gameId : String)
    (participants : List GameParticipant) :
    Except String (GameInsertRow × List ParticipantInsertRow) :=
  if (winnersOf participants).length ≠ 1 then
    .error "Exactly one player must be marked as the winner"
  else
    .ok ({ played_at := playedAt,
           location := if location = "" then none else some location },
         participants.map fun p =>
           { game_id := gameId, player_id := p.playerId,
             deck_id := p.deckId, won := p.won })

end NewGameModal

namespace StatisticsPage

/-! Embedding of the Statistics page (the version with inactive-deck
handling).  Timestamps (`played_at`) are UTC epoch milliseconds. -/

open SortFacts

/-- A row of `players` as selected by nested `game_participants` fetches. -/
structure PlayerInfo where
  username : String
  display_name : Option String
deriving DecidableEq

/-- A nested `game_participants` row of a fetched game. -/
structure GameParticipantInfo where
  player : PlayerInfo
  won : Bool
deriving DecidableEq

/-- A fetched `games` row. -/
structure GameInfo where
  id : String
  played_at : Nat
  location : Option String
  game_participants : List GameParticipantInfo
deriving DecidableEq

/-- A fetched `decks` row; of the `properties` bag only the `inactive` flag is
read by this page. -/
structure DeckRow where
  id : String
  name : String
  inactive : Bool
deriving DecidableEq

/-- A fetched `game_participants` row of the current player. -/
structure Participation where
  won : Bool
  deck : DeckRow
  game : GameInfo
deriving DecidableEq

/-- The decks considered, depending on the include-inactive checkbox. -/
def filteredDecks (includeInactive : Bool) (decks : List DeckRow) :
    List DeckRow :=
  if includeInactive then decks else decks.filter (fun d => !d.inactive)

/-- The participations considered, depending on the checkbox. -/
def filteredParticipations (includeInactive : Bool)
    (participations : List Participation) : List Participation :=
  if includeInactive then participations
  else participations.filter (fun p => !p.deck.inactive)

/-- `totalGames`: the number of considered participations. -/
def totalGames (includeInactive : Bool) (participations : List Participation) :
    Nat :=
  (filteredParticipations includeInactive participations).length

/-- `wins`: the number of considered participations with the win flag. -/
def wins (includeInactive : Bool) (participations : List Participation) : Nat :=
  ((filteredParticipations includeInactive participations).filter
    (fun p => p.won)).length

/-- The overall `winRate`:
`totalGames > 0 ? Math.round((wins / totalGames) * 100) : 0`. -/
def winRate (includeInactive : Bool) (participations : List Participation) :
    ℤ :=
  if 0 < totalGames includeInactive participations then
    jsRound (((wins includeInactive participations : ℚ) /
      (totalGames includeInactive participations : ℚ)) * 100)
  else 0

/-- An entry of the `deckStats` record. -/
structure DeckStat where
  name : String
  gamesPlayed : Nat
  wins : Nat
  lastPlayed : Option Nat
deriving DecidableEq

/-- The initial `deckStats` record: one zeroed entry per considered deck, in
deck order (string-keyed objects preserve insertion order). -/
def initDeckStats (decks : List DeckRow) : List (String × DeckStat) :=
  decks.map fun d =>
    (d.id, { name := d.name, gamesPlayed := 0, wins := 0, lastPlayed := none })

/-- The per-participation update of a deck's entry. -/
def updateDeckStat (s : DeckStat) (p : Participation) : DeckStat :=
  { s with
    gamesPlayed := s.gamesPlayed + 1,
    wins := if p.won then s.wins + 1 else s.wins,
    lastPlayed :=
      match s.lastPlayed with
      | none => some p.game.played_at
      | some t => if t < p.game.played_at then some p.game.played_at else some t }

/-- One step of the `forEach` loop: update the participation's deck entry if
present, leave every other entry alone. -/
def applyParticipation (acc : List (String × DeckStat)) (p : Participation) :
    List (String × DeckStat) :=
  acc.map fun e => if e.1 = p.deck.id then (e.1, updateDeckStat e.2 p) else e

/-- `deckStats` after the `forEach` loop over the considered participations. -/
def deckStats (includeInactive : Bool) (decks : List DeckRow)
    (participations : List Participation) : List (String × DeckStat) :=
  (filteredParticipations includeInactive participations).foldl
    applyParticipation
    (initDeckStats (filteredDecks includeInactive decks))

/-- `Object.values(deckStats)`. -/
def deckStatsValues (includeInactive : Bool) (decks : List DeckRow)
    (participations : List Participation) : List DeckStat :=
  (deckStats includeInactive decks participations).map (fun e => e.2)

/-- A most/least-played summary entry. -/
structure PlayedDeckSummary where
  name : String
  gamesPlayed : Nat
  winRate : ℤ
deriving DecidableEq

/-- The per-deck summary, with the `gamesPlayed > 0` guard on the division. -/
def toPlayedSummary (d : DeckStat) : PlayedDeckSummary :=
  { name := d.name,
    gamesPlayed := d.gamesPlayed,
    winRate :=
      if 0 < d.gamesPlayed then
        jsRound (((d.wins : ℚ) / (d.gamesPlayed : ℚ)) * 100)
      else 0 }

/-- `mostPlayedDeck`: sort descending by `gamesPlayed`, map, take the head. -/
def mostPlayedDeck (values : List DeckStat) : Option PlayedDeckSummary :=
  ((List.insertionSort (byDesc DeckStat.gamesPlayed) values).map
    toPlayedSummary).head?

/-- `leastPlayedDeck`: sort ascending by `gamesPlayed`, map, take the head. -/
def leastPlayedDeck (values : List DeckStat) : Option PlayedDeckSummary :=
  ((List.insertionSort (byAsc DeckStat.gamesPlayed) values).map
    toPlayedSummary).head?

/-- `differenceInDays` of date-fns on two UTC epoch-millisecond instants: the
number of whole days from `t` back from `now` (calendar/DST effects of local
time are abstracted away). -/
def differenceInDays (now t : Nat) : Nat := (now - t) / 86400000

/-- An entry of `inactiveDecksSummary`. -/
structure InactiveDeckEntry where
  name : String
  lastPlayed : Option Nat
  daysSinceLastPlayed : Option Nat
deriving DecidableEq

/-- The mapping step of `inactiveDecksSummary`. -/
def toInactiveEntry (now : Nat) (d : DeckStat) : InactiveDeckEntry :=
  { name := d.name,
    lastPlayed := d.lastPlayed,
    daysSinceLastPlayed := d.lastPlayed.map (differenceInDays now) }

/-- The filter of `inactiveDecksSummary`:
`daysSinceLastPlayed === null || daysSinceLastPlayed > 30`. -/
def isInactiveEntry (e : InactiveDeckEntry) : Bool :=
  match e.daysSinceLastPlayed with
  | none => true
  | some d => 30 < d

/-- The comparator of the `inactiveDecksSummary` sort, as a may-come-before
relation: never-played decks first, then most recently played first. -/
def inactiveBefore (a b : InactiveDeckEntry) : Bool :=
  match a.lastPlayed, b.lastPlayed with
  | none, _ => true
  | some _, none => false
  | some ta, some tb => tb ≤ ta

/-- `inactiveDecksSummary`: map the deck stats, keep the never-played or
stale ones, sort. -/
def inactiveDecksSummary (now : Nat) (values : List DeckStat) :
    List InactiveDeckEntry :=
  List.insertionSort (fun a b => inactiveBefore a b = true)
    ((values.map (toInactiveEntry now)).filter isInactiveEntry)

/-- The inactive summary as computed by the page from its fetched rows. -/
def pageInactiveSummary (now : Nat) (includeInactive : Bool)
    (decks : List DeckRow) (participations : List Participation) :
    List InactiveDeckEntry :=
  inactiveDecksSummary now (deckStatsValues includeInactive decks participations)

/-- A `recentGames` entry. -/
structure RecentGame where
  id : String
  played_at : Nat
  location : Option String
  winner : Option PlayerInfo
deriving DecidableEq

/-- The mapping step of `recentGames`. -/
def toRecentGame (p : Participation) : RecentGame :=
  { id := p.game.id,
    played_at := p.game.played_at,
    location := p.game.location,
    winner := (p.game.game_participants.find? (fun gp => gp.won)).map
      (fun gp => gp.player) }

/-- `recentGames`: map, sort newest first, keep the first five. -/
def recentGames (includeInactive : Bool)
    (participations : List Participation) : List RecentGame :=
  (List.insertionSort (byDesc RecentGame.played_at)
    ((filteredParticipations includeInactive participations).map
      toRecentGame)).take 5

/-- `uniquePlayers`: the distinct usernames among the fetched games'
participants.  The page compares each username against `player.username`,
but the `players` query selected only `id`, so `player.username` is
`undefined` and the comparison always passes; the filter is thus the
constant-true filter. -/
def totalPlayers (includeInactive : Bool)
    (participations : List Participation) : Nat :=
  (((filteredParticipations includeInactive participations).flatMap
    (fun p => (p.game.game_participants.filter (fun _ => true)).map
      (fun gp => gp.player.username))).dedup).length

/-- The `stats` state of the Statistics page. -/
structure StatisticsState where
  totalGames : Nat
  totalDecks : Nat
  winRate : ℤ
  totalPlayers : Nat
  mostPlayedDeck : Option PlayedDeckSummary
  leastPlayedDeck : Option PlayedDeckSummary
  recentGames : List RecentGame
  inactiveDecksSummary : List InactiveDeckEntry
deriving DecidableEq

/-- The `useState` defaults of the `stats` state. -/
def initialStats : StatisticsState :=
  { totalGames := 0, totalDecks := 0, winRate := 0, totalPlayers := 0,
    mostPlayedDeck := none, leastPlayedDeck := none, recentGames := [],
    inactiveDecksSummary := [] }

/-- The statistics computed on the success path of `fetchStatistics`. -/
def computeStatistics (now : Nat) (includeInactive : Bool)
    (decks : List DeckRow) (participations : List Participation) :
    StatisticsState :=
  { totalGames := totalGames includeInactive participations,
    totalDecks := (filteredDecks includeInactive decks).length,
    winRate := winRate includeInactive participations,
    totalPlayers := totalPlayers includeInactive participations,
    mostPlayedDeck :=
      mostPlayedDeck (deckStatsValues includeInactive decks participations),
    leastPlayedDeck :=
      leastPlayedDeck (deckStatsValues includeInactive decks participations),
    recentGames := recentGames includeInactive participations,
    inactiveDecksSummary :=
      pageInactiveSummary now includeInactive decks participations }

/-- A value thrown by a backend call: whether it is an `Error` instance, and
its message. -/
structure ThrownValue where
  isErrorInstance : Bool
  message : String
deriving DecidableEq

/-- `err instanceof Error ? err.message : 'An error occurred'`. -/
def displayMessage (e : ThrownValue) : String :=
  if e.isErrorInstance then e.message else "An error occurred"

/-- A fetched `players` row (only `id` is selected). -/
structure PlayerIdRow where
  id : String
deriving DecidableEq

/-- `fetchStatistics` given the outcomes of its three backend calls, as the
pair (stats passed to `setStats`, error passed to `setError`): each failing
call throws into the `catch`, which records the display string and skips the
`setStats` update. -/
def fetchStatistics (now : Nat) (includeInactive : Bool)
    (playerRes : Except ThrownValue PlayerIdRow)
    (decksRes : Except ThrownValue (List DeckRow))
    (participationsRes : Except ThrownValue (List Participation)) :
    Option StatisticsState × Option String :=
  match playerRes with
  | .error e => (none, some (displayMessage e))
  | .ok _ =>
    match decksRes with
    | .error e => (none, some (displayMessage e))
    | .ok decks =>
      match participationsRes with
      | .error e => (none, some (displayMessage e))
      | .ok participations =>
        (some (computeStatistics now includeInactive decks participations),
         none)

/-- The `stats` state after `fetchStatistics` ran: updated only when
`setStats` was reached. -/
def statsAfterFetch (now : Nat) (includeInactive : Bool)
    (playerRes : Except ThrownValue PlayerIdRow)
    (decksRes : Except ThrownValue (List DeckRow))
    (participationsRes : Except ThrownValue (List Participation)) :
    StatisticsState :=
  (fetchStatistics now includeInactive playerRes decksRes
    participationsRes).1.getD initialStats

end StatisticsPage

namespace Dashboard

/-! Embedding of the per-deck statistics of the Dashboard (Decks) page. -/

/-- A `game_participants` row fetched for one deck (only `won` is selected). -/
structure WonRow where
  won : Bool
deriving DecidableEq

/-- The stats attached to a deck card. -/
structure DeckWithStats where
  totalGames : Nat
  winRate : ℤ
deriving DecidableEq

/-- The per-deck computation of `fetchDecks`:
`totalGames`, `wins`, and `totalGames > 0 ? Math.round((wins / totalGames) *
100) : 0`. -/
def deckWithStats (participations : List WonRow) : DeckWithStats :=
  let totalGames := participations.length
  let wins := (participations.filter (fun p => p.won)).length
  { totalGames := totalGames,
    winRate :=
      if 0 < totalGames then
        jsRound (((wins : ℚ) / (totalGames : ℚ)) * 100)
      else 0 }

end Dashboard

namespace PlayersPage

/-! Embedding of the Players page's per-player statistics. -/

open SortFacts

/-- The deck nested in a fetched `game_participants` row. -/
structure DeckRef where
  id : String
  name : String
deriving DecidableEq

/-- A fetched `game_participants` row of a player. -/
structure PlayerGame where
  id : String
  won : Bool
  created_at : Nat
  deck : DeckRef
deriving DecidableEq

/-- A fetched `players` row with its nested participations. -/
structure PlayersRow where
  id : String
  username : String
  display_name : Option String
  game_participants : List PlayerGame
deriving DecidableEq

/-- The per-player `winRate`:
`totalGames > 0 ? Math.round((wins / totalGames) * 100) : 0`. -/
def winRate (games : List PlayerGame) : ℤ :=
  let totalGames := games.length
  let wins := (games.filter (fun g => g.won)).length
  if 0 < totalGames then
    jsRound (((wins : ℚ) / (totalGames : ℚ)) * 100)
  else 0

/-- `thirtyDaysAgo`: thirty days before `now` (the source moves the calendar
date back 30 days; calendar effects are abstracted to 30 whole days). -/
def thirtyDaysAgo (now : Nat) : Nat := now - 30 * 86400000

/-- `recentGames`: the games of the last 30 days. -/
def recentGamesCount (now : Nat) (games : List PlayerGame) : Nat :=
  (games.filter (fun g => thirtyDaysAgo now < g.created_at)).length

/-- One step of the `deckStats` reduce: `acc[deckName] = (acc[deckName] || 0)
+ 1`, keyed by deck name in first-occurrence order. -/
def bumpDeckCount (acc : List (String × Nat)) (deckName : String) :
    List (String × Nat) :=
  if acc.any (fun e => e.1 == deckName) then
    acc.map fun e => if e.1 = deckName then (e.1, e.2 + 1) else e
  else acc ++ [(deckName, 1)]

/-- The `deckStats` record of a player: games grouped by deck name. -/
def deckCounts (games : List PlayerGame) : List (String × Nat) :=
  games.foldl (fun acc g => bumpDeckCount acc g.deck.name) []

/-- An entry of `favoriteDecks`. -/
structure FavoriteDeck where
  name : String
  gamesPlayed : Nat
deriving DecidableEq

/-- `Object.entries(deckStats).map(([name, gamesPlayed]) => ...)`. -/
def favoriteDeckList (games : List PlayerGame) : List FavoriteDeck :=
  (deckCounts games).map fun e => { name := e.1, gamesPlayed := e.2 }

/-- `favoriteDecks`: sort descending by count, keep the top three. -/
def favoriteDecks (games : List PlayerGame) : List FavoriteDeck :=
  (List.insertionSort (byDesc FavoriteDeck.gamesPlayed)
    (favoriteDeckList games)).take 3

/-- The processed player shown by the page. -/
structure ProcessedPlayer where
  id : String
  username : String
  display_name : Option String
  totalGames : Nat
  winRate : ℤ
  recentGames : Nat
  favoriteDecks : List FavoriteDeck
deriving DecidableEq

/-- The processing of one fetched player row. -/
def processPlayer (now : Nat) (p : PlayersRow) : ProcessedPlayer :=
  { id := p.id,
    username := p.username,
    display_name := p.display_name,
    totalGames := p.game_participants.length,
    winRate := winRate p.game_participants,
    recentGames := recentGamesCount now p.game_participants,
    favoriteDecks := favoriteDecks p.game_participants }

/-- `fetchPlayers` given the outcome of its backend call, as the pair
(players passed to `setPlayers`, error passed to `setError`). -/
def fetchPlayers (now : Nat)
    (playersRes : Except StatisticsPage.ThrownValue (List PlayersRow)) :
    Option (List ProcessedPlayer) × Option String :=
  match playersRes with
  | .error e => (none, some (StatisticsPage.displayMessage e))
  | .ok rows => (some (rows.map (processPlayer now)), none)

/-- The `players` state after `fetchPlayers` ran (its `useState` default is
the empty list). -/
def playersAfterFetch (now : Nat)
    (playersRes : Except StatisticsPage.ThrownValue (List PlayersRow)) :
    List ProcessedPlayer :=
  (fetchPlayers now playersRes).1.getD []

end PlayersPage

namespace StatisticsOld

/-! Embedding of the earlier Statistics page version
(`src/pages/Statistics.tsx`): deck stats are grouped from the participations
alone (create-then-increment), and the per-deck win-rate division carries no
`gamesPlayed > 0` guard. -/

open SortFacts

/-- The deck nested in a fetched participation (only `id`, `name`). -/
structure DeckRef where
  id : String
  name : String
deriving DecidableEq

/-- A fetched `games` row of this version (no `location`). -/
structure GameInfo where
  id : String
  played_at : Nat
  game_participants : List StatisticsPage.GameParticipantInfo
deriving DecidableEq

/-- A fetched `game_participants` row of the current player. -/
structure Participation where
  won : Bool
  deck : DeckRef
  game : GameInfo
deriving DecidableEq

/-- An entry of this version's `deckStats` record. -/
structure DeckStat where
  name : String
  gamesPlayed : Nat
  wins : Nat
deriving DecidableEq

/-- One step of the `reduce`: create a zeroed entry on first sight of the
deck, then increment its counters. -/
def bumpDeckStat (acc : List (String × DeckStat)) (p : Participation) :
    List (String × DeckStat) :=
  let acc1 :=
    if acc.any (fun e => e.1 == p.deck.id) then acc
    else acc ++ [(p.deck.id, { name := p.deck.name, gamesPlayed := 0, wins := 0 })]
  acc1.map fun e =>
    if e.1 = p.deck.id then
      (e.1, { e.2 with
              gamesPlayed := e.2.gamesPlayed + 1,
              wins := if p.won then e.2.wins + 1 else e.2.wins })
    else e

/-- The `deckStats` record of this version. -/
def deckStats (participations : List Participation) :
    List (String × DeckStat) :=
  participations.foldl bumpDeckStat []

/-- The per-deck summary of this version:
`Math.round((wins / gamesPlayed) * 100)` with no guard on `gamesPlayed`
(in `ℚ` a zero divisor yields 0; the grouping makes it unreachable). -/
def toPlayedSummary (d : DeckStat) : StatisticsPage.PlayedDeckSummary :=
  { name := d.name,
    gamesPlayed := d.gamesPlayed,
    winRate := jsRound (((d.wins : ℚ) / (d.gamesPlayed : ℚ)) * 100) }

/-- A `recentGames` entry of this version: the winner defaults to an empty
player instead of `null`. -/
structure RecentGame where
  id : String
  played_at : Nat
  winner : StatisticsPage.PlayerInfo
deriving DecidableEq

/-- The mapping step of this version's `recentGames`. -/
def toRecentGame (p : Participation) : RecentGame :=
  { id := p.game.id,
    played_at := p.game.played_at,
    winner :=
      ((p.game.game_participants.find? (fun gp => gp.won)).map
        (fun gp => gp.player)).getD { username := "", display_name := none } }

/-- This version's `recentGames`: map, sort newest first, keep five. -/
def recentGames (participations : List Participation) : List RecentGame :=
  (List.insertionSort (byDesc RecentGame.played_at)
    (participations.map toRecentGame)).take 5

end StatisticsOld

namespace StatisticsPage

/-- The cumulative effect of the `forEach` loop on the entry keyed `id`:
fold the per-participation update over the participations that hit it. -/
def applyToStat (id : String) (s : DeckStat) (ps : List Participation) :
    DeckStat :=
  ps.foldl (fun acc p => if id = p.deck.id then updateDeckStat acc p else acc) s

end StatisticsPage

/-- Modelled from the spec: the win rate is `round(100 * wins / total)` when
`total > 0`, else 0. -/
def specWinRate (wins total : Nat) : ℤ :=
  if 0 < total then jsRound ((100 * wins : ℚ) / (total : ℚ)) else 0

namespace Demo

/-! Concrete data used to witness the theorems with hypotheses. -/

def deckA : StatisticsPage.DeckRow := { id := "a", name := "A", inactive := false }

def gameAt (t : Nat) : StatisticsPage.GameInfo :=
  { id := "g", played_at := t, location := none, game_participants := [] }

def partAt (t : Nat) (w : Bool) : StatisticsPage.Participation :=
  { won := w, deck := deckA, game := gameAt t }

def demoParts : List StatisticsPage.Participation := [partAt 86400000 true]

def demoStat : StatisticsPage.DeckStat :=
  { name := "A", gamesPlayed := 1, wins := 1, lastPlayed := some 86400000 }

def demoNow : Nat := 86400000 * 32

def demoParticipants : List NewGameModal.GameParticipant :=
  [{ playerId := "p", deckId := "a", won := true },
   { playerId := "q", deckId := "b", won := false }]

end Demo

namespace SortFacts

variable {α : Type}

theorem firstBest_cons_none {r : α → α → Prop} [DecidableRel r] {a : α}
    {l : List α} (hl : firstBest r l = none) :
    firstBest r (a :: l) = some a := by
  rw [firstBest, hl]

theorem firstBest_cons_some {r : α → α → Prop} [DecidableRel r] {a b : α}
    {l : List α} (hl : firstBest r l = some b) :
    firstBest r (a :: l) = if r a b then some a else some b := by
  rw [firstBest, hl]

theorem firstBest_isSome {r : α → α → Prop} [DecidableRel r] {l : List α}
    (h : l ≠ []) : ∃ m, firstBest r l = some m := by
  cases l with
  | nil => exact absurd rfl h
  | cons a l =>
    cases hl : firstBest r l with
    | none => exact ⟨a, firstBest_cons_none hl⟩
    | some b =>
      rw [firstBest_cons_some hl]
      by_cases hab : r a b <;> simp [hab]

theorem firstBest_none_iff {r : α → α → Prop} [DecidableRel r] {l : List α} :
    firstBest r l = none ↔ l = [] := by
  constructor
  · intro h
    by_contra hne
    obtain ⟨m, hm⟩ := firstBest_isSome (r := r) hne
    rw [hm] at h; cases h
  · intro h; subst h; rfl

theorem firstBest_mem {r : α → α → Prop} [DecidableRel r] {l : List α} {m : α}
    (h : firstBest r l = some m) : m ∈ l := by
  induction l generalizing m with
  | nil => cases h
  | cons a l ih =>
    cases hl : firstBest r l with
    | none =>
      rw [firstBest_cons_none hl] at h
      exact (Option.some.inj h) ▸ List.mem_cons_self a l
    | some b =>
      rw [firstBest_cons_some hl] at h
      by_cases hab : r a b
      · rw [if_pos hab] at h
        exact (Option.some.inj h) ▸ List.mem_cons_self a l
      · rw [if_neg hab] at h
        obtain rfl := Option.some.inj h
        exact List.mem_cons_of_mem a (ih hl)

theorem firstBest_best {r : α → α → Prop} [DecidableRel r] [IsTotal α r]
    [IsTrans α r] {l : List α} {m : α}
    (h : firstBest r l = some m) : ∀ x ∈ l, r m x := by
  induction l generalizing m with
  | nil => cases h
  | cons a l ih =>
    cases hl : firstBest r l with
    | none =>
      rw [firstBest_cons_none hl] at h
      obtain rfl := Option.some.inj h
      have hle : l = [] := firstBest_none_iff.mp hl
      subst hle
      intro x hx
      have hxa : x = a := by simpa using hx
      subst hxa
      rcases IsTotal.total (r := r) x x with h' | h' <;> exact h'
    | some b =>
      rw [firstBest_cons_some hl] at h
      have hb := ih hl
      by_cases hab : r a b
      · rw [if_pos hab] at h
        obtain rfl := Option.some.inj h
        intro x hx
        rcases List.mem_cons.mp hx with rfl | hx
        · rcases IsTotal.total (r := r) x x with h' | h' <;> exact h'
        · exact IsTrans.trans _ _ _ hab (hb x hx)
      · rw [if_neg hab] at h
        obtain rfl := Option.some.inj h
        intro x hx
        rcases List.mem_cons.mp hx with rfl | hx
        · rcases IsTotal.total (r := r) x b with h' | h'
          · exact absurd h' hab
          · exact h'
        · exact hb x hx

/-- The chosen element is the first one in list order among the best: every
element strictly before it fails `r x m`. -/
theorem firstBest_first {r : α → α → Prop} [DecidableRel r] {l : List α} {m : α}
    (h : firstBest r l = some m) :
    ∃ l₁ l₂, l = l₁ ++ m :: l₂ ∧ ∀ x ∈ l₁, ¬ r x m := by
  induction l generalizing m with
  | nil => cases h
  | cons a l ih =>
    cases hl : firstBest r l with
    | none =>
      rw [firstBest_cons_none hl] at h
      obtain rfl := Option.some.inj h
      exact ⟨[], l, rfl, by simp⟩
    | some b =>
      rw [firstBest_cons_some hl] at h
      by_cases hab : r a b
      · rw [if_pos hab] at h
        obtain rfl := Option.some.inj h
        exact ⟨[], l, rfl, by simp⟩
      · rw [if_neg hab] at h
        obtain rfl := Option.some.inj h
        obtain ⟨l₁, l₂, hsplit, hfirst⟩ := ih hl
        refine ⟨a :: l₁, l₂, by rw [hsplit]; rfl, ?_⟩
        intro x hx
        rcases List.mem_cons.mp hx with rfl | hx
        · exact hab
        · exact hfirst x hx

theorem insertionSort_eq_nil_iff {r : α → α → Prop} [DecidableRel r]
    {l : List α} : List.insertionSort r l = [] ↔ l = [] := by
  constructor
  · intro h
    have := (List.perm_insertionSort r l).length_eq
    rw [h] at this
    exact List.eq_nil_of_length_eq_zero this.symm
  · intro h; subst h; rfl

/-- The head of a stable sort is the first best element of the input. -/
theorem head?_insertionSort (r : α → α → Prop) [DecidableRel r] (l : List α) :
    (List.insertionSort r l).head? = firstBest r l := by
  induction l with
  | nil => rfl
  | cons a l ih =>
    rw [List.insertionSort]
    cases hs : List.insertionSort r l with
    | nil =>
      have hnil : l = [] := insertionSort_eq_nil_iff.mp hs
      subst hnil
      rfl
    | cons b t =>
      rw [hs] at ih
      rw [List.orderedInsert]
      cases hfb : firstBest r l with
      | none =>
        rw [hfb] at ih; cases ih
      | some c =>
        rw [hfb] at ih
        have hbc : b = c := Option.some.inj ih
        subst hbc
        rw [firstBest_cons_some hfb]
        by_cases hab : r a b
        · rw [if_pos hab, if_pos hab]; rfl
        · rw [if_neg hab, if_neg hab]; rfl

/-- Stability of `insertionSort` for a numeric key: the sublist of elements
with any fixed key value is unchanged, i.e. ties keep their input order. -/
theorem insertionSort_filter_key (key : α → Nat) (k : Nat) (l : List α) :
    (List.insertionSort (byDesc key) l).filter (fun x => key x == k) =
      l.filter (fun x => key x == k) := by
  induction l with
  | nil => rfl
  | cons a l ih =>
    have hTD := List.takeWhile_append_dropWhile
      (p := fun b => decide ¬ byDesc key a b) (l := List.insertionSort (byDesc key) l)
    have hsum := congrArg (List.filter (fun x => key x == k)) hTD
    rw [List.filter_append, ih] at hsum
    rw [List.insertionSort, List.orderedInsert_eq_take_drop, List.filter_append]
    by_cases hk : key a = k
    · have htk : ((List.insertionSort (byDesc key) l).takeWhile
          fun b => decide ¬ byDesc key a b).filter (fun x => key x == k) = [] := by
        apply List.filter_eq_nil_iff.mpr
        intro b hb
        have hcond := List.mem_takeWhile_imp hb
        have hgt : ¬ key b ≤ key a := by simpa [byDesc] using hcond
        simp only [beq_iff_eq]
        omega
      rw [htk, List.nil_append] at hsum ⊢
      have hfa : (key a == k) = true := by simpa using hk
      simp only [List.filter_cons, hfa, if_true, hsum]
    · have hfa : (key a == k) = false := by simpa using hk
      simp only [List.filter_cons, hfa, Bool.false_eq_true, if_false]
      exact hsum

/-- In a list whose `Pairwise r` holds, every element of `take n` is related to
every element of `drop n`. -/
theorem pairwise_take_drop {r : α → α → Prop} {l : List α} (h : List.Pairwise r l)
    (n : Nat) : ∀ x ∈ l.take n, ∀ y ∈ l.drop n, r x y := by
  have hsplit : l.take n ++ l.drop n = l := List.take_append_drop n l
  rw [← hsplit] at h
  exact (List.pairwise_append.mp h).2.2
end SortFacts

namespace StatisticsPage

theorem applyToStat_nil (id : String) (s : DeckStat) :
    applyToStat id s [] = s := rfl

theorem applyToStat_cons (id : String) (s : DeckStat) (p : Participation)
    (ps : List Participation) :
    applyToStat id s (p :: ps) =
      applyToStat id (if id = p.deck.id then updateDeckStat s p else s) ps := rfl

/-- The whole `forEach` loop acts on each entry independently. -/
theorem foldl_applyParticipation (ps : List Participation)
    (acc : List (String × DeckStat)) :
    ps.foldl applyParticipation acc =
      acc.map (fun e => (e.1, applyToStat e.1 e.2 ps)) := by
  induction ps generalizing acc with
  | nil =>
    simp [applyToStat_nil]
  | cons p ps ih =>
    rw [List.foldl_cons, ih, applyParticipation, List.map_map]
    congr 1
    funext e
    by_cases h : e.1 = p.deck.id
    · simp [Function.comp, h, applyToStat_cons]
    · simp [Function.comp, h, applyToStat_cons]

/-- `deckStats` entry-wise: one entry per considered deck, in deck order. -/
theorem deckStats_eq (includeInactive : Bool) (decks : List DeckRow)
    (participations : List Participation) :
    deckStats includeInactive decks participations =
      (filteredDecks includeInactive decks).map (fun d =>
        (d.id, applyToStat d.id
          { name := d.name, gamesPlayed := 0, wins := 0, lastPlayed := none }
          (filteredParticipations includeInactive participations))) := by
  rw [deckStats, foldl_applyParticipation, initDeckStats, List.map_map]
  rfl

theorem updateDeckStat_lastPlayed_ne_none (s : DeckStat) (p : Participation) :
    (updateDeckStat s p).lastPlayed ≠ none := by
  cases h : s.lastPlayed <;> simp [updateDeckStat, h]
  split <;> simp

/-- The entry's `lastPlayed` stays `null` exactly when no considered
participation hits the deck. -/
theorem applyToStat_lastPlayed_none (id : String) (s : DeckStat)
    (ps : List Participation) :
    (applyToStat id s ps).lastPlayed = none ↔
      (s.lastPlayed = none ∧ ∀ p ∈ ps, id ≠ p.deck.id) := by
  induction ps generalizing s with
  | nil => simp [applyToStat_nil]
  | cons p ps ih =>
    by_cases h : id = p.deck.id
    · rw [applyToStat_cons, if_pos h, ih]
      constructor
      · rintro ⟨hnone, -⟩
        exact absurd hnone (updateDeckStat_lastPlayed_ne_none s p)
      · rintro ⟨-, hall⟩
        exact absurd h (hall p (List.mem_cons_self p ps))
    · rw [applyToStat_cons, if_neg h, ih]
      constructor
      · rintro ⟨h1, h2⟩
        refine ⟨h1, ?_⟩
        intro q hq
        rcases List.mem_cons.mp hq with rfl | hq
        · exact h
        · exact h2 q hq
      · rintro ⟨h1, h2⟩
        exact ⟨h1, fun q hq => h2 q (List.mem_cons_of_mem p hq)⟩

/-- The entry's `gamesPlayed` counts the considered participations that hit
the deck. -/
theorem applyToStat_gamesPlayed (id : String) (s : DeckStat)
    (ps : List Participation) :
    (applyToStat id s ps).gamesPlayed =
      s.gamesPlayed + ps.countP (fun p => decide (id = p.deck.id)) := by
  induction ps generalizing s with
  | nil => simp [applyToStat_nil]
  | cons p ps ih =>
    rw [applyToStat_cons, List.countP_cons, ih]
    by_cases h : id = p.deck.id
    · have h1 : (updateDeckStat s p).gamesPlayed = s.gamesPlayed + 1 := rfl
      rw [if_pos h, h1, decide_eq_true h, if_pos rfl]
      omega
    · rw [if_neg h, decide_eq_false h, if_neg Bool.false_ne_true]
      omega

theorem mem_inactiveDecksSummary (now : Nat) (values : List DeckStat)
    (x : InactiveDeckEntry) :
    x ∈ inactiveDecksSummary now values ↔
      (x ∈ values.map (toInactiveEntry now) ∧ isInactiveEntry x = true) := by
  rw [inactiveDecksSummary, List.mem_insertionSort, List.mem_filter]

theorem isInactiveEntry_toInactiveEntry (now : Nat) (d : DeckStat) :
    isInactiveEntry (toInactiveEntry now d) = true ↔
      (d.lastPlayed = none ∨
        ∃ t, d.lastPlayed = some t ∧ 30 < differenceInDays now t) := by
  cases h : d.lastPlayed <;>
    simp [isInactiveEntry, toInactiveEntry, h]

end StatisticsPage

theorem winRate_shape (w t : Nat) :
    (if 0 < t then jsRound (((w : ℚ) / (t : ℚ)) * 100) else 0) =
      specWinRate w t := by
  unfold specWinRate
  by_cases h : 0 < t
  · rw [if_pos h, if_pos h]
    congr 1
    ring
  · rw [if_neg h, if_neg h]

/-- C1: for every list of game participations the computed win rate equals
`round(100 * wins / total)` when `total > 0` and `0` otherwise, for the
Statistics page's overall rate, the Dashboard's per-deck rate, and the
Players page's per-player rate. -/
theorem winRate_formula :
    ∀ (includeInactive : Bool)
      (participations : List StatisticsPage.Participation)
      (rows : List Dashboard.WonRow) (games : List PlayersPage.PlayerGame),
      StatisticsPage.winRate includeInactive participations =
        specWinRate (StatisticsPage.wins includeInactive participations)
          (StatisticsPage.totalGames includeInactive participations) ∧
      (Dashboard.deckWithStats rows).winRate =
        specWinRate ((rows.filter (fun p => p.won)).length) rows.length ∧
      PlayersPage.winRate games =
        specWinRate ((games.filter (fun g => g.won)).length) games.length := by
  intro includeInactive participations rows games
  refine ⟨?_, ?_, ?_⟩
  · rw [StatisticsPage.winRate, winRate_shape]
  · show (if 0 < rows.length then
        jsRound ((((rows.filter (fun p => p.won)).length : ℚ) /
          (rows.length : ℚ)) * 100) else 0) = _
    rw [winRate_shape]
  · show (if 0 < games.length then
        jsRound ((((games.filter (fun g => g.won)).length : ℚ) /
          (games.length : ℚ)) * 100) else 0) = _
    rw [winRate_shape]

/-- C7 counterexample: while the session is loading and a user is present,
`PrivateRoute` renders the loading view, not the protected child — so
"renders the child if and only if a user is present" fails as stated. -/
theorem privateRoute_loading_counterexample :
    PrivateRouteComponent.PrivateRoute true (some { id := "u" }) ≠
        PrivateRouteComponent.RenderResult.childContent ∧
      (some { id := "u" } : Option PrivateRouteComponent.SessionUser).isSome =
        true := by
  constructor
  · intro h
    simp [PrivateRouteComponent.PrivateRoute] at h
  · rfl

/-- C7 (amended): `PrivateRoute` renders the protected child iff it is not
loading and a session user is present; while loading it renders the loading
view; when not loading without a user it redirects to `/login`.  In
particular the child is never rendered without a present user. -/
theorem privateRoute_gating :
    ∀ (loading : Bool) (user : Option PrivateRouteComponent.SessionUser),
      (PrivateRouteComponent.PrivateRoute loading user =
          PrivateRouteComponent.RenderResult.childContent ↔
        (loading = false ∧ user.isSome = true)) ∧
      PrivateRouteComponent.PrivateRoute true user =
        PrivateRouteComponent.RenderResult.loadingView ∧
      PrivateRouteComponent.PrivateRoute false none =
        PrivateRouteComponent.RenderResult.navigateTo "/login" := by
  intro loading user
  cases loading <;> cases user <;>
    simp [PrivateRouteComponent.PrivateRoute]

theorem foldl_colorChange_exclusive
    (f : NewDeckModal.ColorIdentity → NewDeckModal.ColorKey →
      NewDeckModal.ColorIdentity)
    (hf : ∀ c k, NewDeckModal.colorlessExclusive (f c k)) :
    ∀ (ks : List NewDeckModal.ColorKey) (c : NewDeckModal.ColorIdentity),
      NewDeckModal.colorlessExclusive c →
        NewDeckModal.colorlessExclusive (ks.foldl f c) := by
  intro ks
  induction ks with
  | nil => intro c hc; exact hc
  | cons k ks ih => intro c hc; exact ih (f c k) (hf c k)

theorem newDeck_colorChange_exclusive (c : NewDeckModal.ColorIdentity)
    (k : NewDeckModal.ColorKey) :
    NewDeckModal.colorlessExclusive (NewDeckModal.handleColorChange c k) := by
  cases k <;>
    simp [NewDeckModal.handleColorChange, NewDeckModal.colorlessExclusive]

theorem editDeck_colorChange_exclusive (c : NewDeckModal.ColorIdentity)
    (k : NewDeckModal.ColorKey) :
    NewDeckModal.colorlessExclusive (EditDeckModal.handleColorChange c k) := by
  cases k <;>
    simp [EditDeckModal.handleColorChange, NewDeckModal.colorlessExclusive]

/-- C9: after any `handleColorChange` of either deck modal, `colorless`
implies all five colors are off; toggling any of the five colors forces
`colorless` off; and the invariant is preserved by every sequence of color
changes. -/
theorem colorIdentity_mutual_exclusion :
    ∀ (c : NewDeckModal.ColorIdentity) (k : NewDeckModal.ColorKey)
      (ks : List NewDeckModal.ColorKey),
      NewDeckModal.colorlessExclusive (NewDeckModal.handleColorChange c k) ∧
      NewDeckModal.colorlessExclusive (EditDeckModal.handleColorChange c k) ∧
      (k ≠ NewDeckModal.ColorKey.colorless →
        (NewDeckModal.handleColorChange c k).colorless = false ∧
        (EditDeckModal.handleColorChange c k).colorless = false) ∧
      (NewDeckModal.colorlessExclusive c →
        NewDeckModal.colorlessExclusive
          (ks.foldl NewDeckModal.handleColorChange c) ∧
        NewDeckModal.colorlessExclusive
          (ks.foldl EditDeckModal.handleColorChange c)) := by
  intro c k ks
  refine ⟨newDeck_colorChange_exclusive c k, editDeck_colorChange_exclusive c k,
    ?_, ?_⟩
  · intro hk
    cases k with
    | colorless => exact absurd rfl hk
    | white => exact ⟨rfl, rfl⟩
    | blue => exact ⟨rfl, rfl⟩
    | black => exact ⟨rfl, rfl⟩
    | red => exact ⟨rfl, rfl⟩
    | green => exact ⟨rfl, rfl⟩
  · intro hc
    exact ⟨foldl_colorChange_exclusive NewDeckModal.handleColorChange
        newDeck_colorChange_exclusive ks c hc,
      foldl_colorChange_exclusive EditDeckModal.handleColorChange
        editDeck_colorChange_exclusive ks c hc⟩

theorem bumpDeckStat_ge_one (acc : List (String × StatisticsOld.DeckStat))
    (p : StatisticsOld.Participation)
    (h : ∀ e ∈ acc, 1 ≤ e.2.gamesPlayed) :
    ∀ e ∈ StatisticsOld.bumpDeckStat acc p, 1 ≤ e.2.gamesPlayed := by
  intro e he
  rw [StatisticsOld.bumpDeckStat] at he
  set acc1 := if acc.any (fun e => e.1 == p.deck.id) then acc
    else acc ++ [(p.deck.id,
      { name := p.deck.name, gamesPlayed := 0, wins := 0 })] with hacc1
  obtain ⟨e0, he0, rfl⟩ := List.mem_map.mp he
  by_cases hk : e0.1 = p.deck.id
  · simp only [if_pos hk]
    omega
  · simp only [if_neg hk]
    have he0acc : e0 ∈ acc := by
      rw [hacc1] at he0
      by_cases hmem : acc.any (fun e => e.1 == p.deck.id) = true
      · rwa [if_pos hmem] at he0
      · rw [if_neg hmem] at he0
        rcases List.mem_append.mp he0 with h1 | h1
        · exact h1
        · exfalso
          have : e0 = (p.deck.id,
              { name := p.deck.name, gamesPlayed := 0, wins := 0 }) := by
            simpa using h1
          exact hk (by rw [this])
    exact h e0 he0acc

theorem oldDeckStats_ge_one_aux (ps : List StatisticsOld.Participation)
    (acc : List (String × StatisticsOld.DeckStat))
    (h : ∀ e ∈ acc, 1 ≤ e.2.gamesPlayed) :
    ∀ e ∈ ps.foldl StatisticsOld.bumpDeckStat acc, 1 ≤ e.2.gamesPlayed := by
  induction ps generalizing acc with
  | nil => exact h
  | cons p ps ih =>
    rw [List.foldl_cons]
    exact ih (StatisticsOld.bumpDeckStat acc p) (bumpDeckStat_ge_one acc p h)

/-- C5: every division in the derived statistics has a nonzero divisor —
the per-deck summary with the explicit `gamesPlayed > 0` guard yields 0 on
the zero branch, and in the unguarded older grouping every entry enters with
at least one participation, so its `gamesPlayed` divisor is at least 1. -/
theorem winRate_division_guards :
    ∀ (participations : List StatisticsOld.Participation)
      (d : StatisticsPage.DeckStat),
      (∀ e ∈ StatisticsOld.deckStats participations, 1 ≤ e.2.gamesPlayed) ∧
      (d.gamesPlayed = 0 → (StatisticsPage.toPlayedSummary d).winRate = 0) := by
  intro participations d
  constructor
  · exact oldDeckStats_ge_one_aux participations [] (by simp)
  · intro h0
    simp [StatisticsPage.toPlayedSummary, h0]

theorem countP_eq_of_map_nodup {α : Type} (g : α → String) (ps : List α)
    (h : (ps.map g).Nodup) (v : String) :
    ps.countP (fun x => decide (g x = v)) ≤ 1 := by
  induction ps with
  | nil => simp
  | cons p ps ih =>
    rw [List.map_cons, List.nodup_cons] at h
    rw [List.countP_cons]
    by_cases hp : g p = v
    · have hzero : ps.countP (fun x => decide (g x = v)) = 0 := by
        rw [List.countP_eq_zero]
        intro x hx
        simp only [decide_eq_true_eq]
        intro hxv
        exact h.1 (hp ▸ hxv ▸ List.mem_map_of_mem g hx)
      rw [hzero, decide_eq_true hp, if_pos rfl]
    · rw [decide_eq_false hp, if_neg Bool.false_ne_true]
      have := ih h.2
      omega

theorem winnersOf_winStateChange (ps : List NewGameModal.GameParticipant)
    (pid : String) (won : Bool) :
    (NewGameModal.winnersOf
        (NewGameModal.handleWinStateChange ps pid won)).length =
      if won then ps.countP (fun p => decide (p.playerId = pid)) else 0 := by
  rw [NewGameModal.winnersOf, NewGameModal.handleWinStateChange,
    List.filter_map, List.length_map, ← List.countP_eq_length_filter]
  have hpred : ((fun p : NewGameModal.GameParticipant => p.won) ∘
      (fun p : NewGameModal.GameParticipant =>
        if p.playerId = pid then { p with won := won }
        else { p with won := false })) =
      (fun p : NewGameModal.GameParticipant =>
        if p.playerId = pid then won else false) := by
    funext x
    by_cases hx : x.playerId = pid <;> simp [Function.comp, hx]
  rw [hpred]
  cases won with
  | false =>
    rw [if_neg Bool.false_ne_true, List.countP_eq_zero]
    intro x hx
    simp
  | true =>
    rw [if_pos rfl]
    congr 1

theorem winStateChange_le_one (ps : List NewGameModal.GameParticipant)
    (pid : String) (won : Bool)
    (h : (ps.map (fun p => p.playerId)).Nodup) :
    (NewGameModal.winnersOf
      (NewGameModal.handleWinStateChange ps pid won)).length ≤ 1 := by
  rw [winnersOf_winStateChange]
  cases won with
  | false => simp
  | true =>
    rw [if_pos rfl]
    exact countP_eq_of_map_nodup (fun p => p.playerId) ps h pid

theorem winStateChange_playerIds (ps : List NewGameModal.GameParticipant)
    (pid : String) (won : Bool) :
    (NewGameModal.handleWinStateChange ps pid won).map (fun p => p.playerId) =
      ps.map (fun p => p.playerId) := by
  rw [NewGameModal.handleWinStateChange, List.map_map]
  congr 1
  funext p
  by_cases hx : p.playerId = pid <;> simp [Function.comp, hx]

theorem winStateChange_seq_le_one (changes : List (String × Bool)) :
    ∀ (ps : List NewGameModal.GameParticipant),
      (ps.map (fun p => p.playerId)).Nodup → changes ≠ [] →
      (NewGameModal.winnersOf
        (changes.foldl
          (fun a c => NewGameModal.handleWinStateChange a c.1 c.2) ps)).length
        ≤ 1 := by
  induction changes with
  | nil => intro ps _ hne; exact absurd rfl hne
  | cons c cs ih =>
    intro ps h _
    rw [List.foldl_cons]
    by_cases hcs : cs = []
    · subst hcs
      exact winStateChange_le_one ps c.1 c.2 h
    · apply ih _ _ hcs
      rw [winStateChange_playerIds]
      exact h

/-- C8: marking a player as winner clears every other participant's win flag,
so (for the modal's lists, whose player ids are distinct) at most one
participant has the win flag after any `handleWinStateChange`; player ids are
unchanged, so the invariant holds after any nonempty sequence of win-state
changes. -/
theorem winStateChange_at_most_one_winner :
    ∀ (participants : List NewGameModal.GameParticipant) (playerId : String)
      (won : Bool) (changes : List (String × Bool)),
      ((participants.map (fun p => p.playerId)).Nodup →
        (NewGameModal.winnersOf
          (NewGameModal.handleWinStateChange participants playerId
            won)).length ≤ 1) ∧
      (NewGameModal.handleWinStateChange participants playerId won).map
          (fun p => p.playerId) = participants.map (fun p => p.playerId) ∧
      ((participants.map (fun p => p.playerId)).Nodup → changes ≠ [] →
        (NewGameModal.winnersOf
          (changes.foldl
            (fun a c => NewGameModal.handleWinStateChange a c.1 c.2)
            participants)).length ≤ 1) := by
  intro participants playerId won changes
  exact ⟨winStateChange_le_one participants playerId won,
    winStateChange_playerIds participants playerId won,
    winStateChange_seq_le_one changes participants⟩

/-- C2: with the Create Game button enabled (not loading or submitting, a
winner marked, at least two participants), `handleSubmit` inserts the game
and participant rows iff exactly one participant has won and there are at
least two participants; otherwise it reports the winner-validation error and
inserts nothing. -/
theorem newGame_submission_validation :
    ∀ (playedAt : Nat) (location : String) (gameId : String)
      (participants : List NewGameModal.GameParticipant),
      NewGameModal.createGameDisabled false false participants = false →
      ((∃ rows, NewGameModal.handleSubmit playedAt location gameId
          participants = Except.ok rows) ↔
        ((NewGameModal.winnersOf participants).length = 1 ∧
          2 ≤ participants.length)) ∧
      (¬ ((NewGameModal.winnersOf participants).length = 1 ∧
          2 ≤ participants.length) →
        NewGameModal.handleSubmit playedAt location gameId participants =
          Except.error "Exactly one player must be marked as the winner") := by
  intro playedAt location gameId participants hdis
  have hlen : 2 ≤ participants.length := by
    rw [NewGameModal.createGameDisabled] at hdis
    by_contra hlt
    rw [decide_eq_true (by omega : participants.length < 2)] at hdis
    simp at hdis
  by_cases hw : (NewGameModal.winnersOf participants).length = 1
  · have hok : ∃ rows, NewGameModal.handleSubmit playedAt location gameId
        participants = Except.ok rows := by
      rw [NewGameModal.handleSubmit, if_neg (by simp [hw])]
      exact ⟨_, rfl⟩
    refine ⟨⟨fun _ => ⟨hw, hlen⟩, fun _ => hok⟩, fun hcon => absurd ⟨hw, hlen⟩ hcon⟩
  · have herr : NewGameModal.handleSubmit playedAt location gameId
        participants = Except.error
          "Exactly one player must be marked as the winner" := by
      rw [NewGameModal.handleSubmit, if_pos hw]
    refine ⟨⟨?_, fun hc => absurd hc.1 hw⟩, fun _ => herr⟩
    rintro ⟨rows, hrows⟩
    rw [herr] at hrows
    cases hrows

theorem newGame_submission_validation_witness :
    NewGameModal.createGameDisabled false false Demo.demoParticipants = false ∧
      ∃ rows, NewGameModal.handleSubmit 0 "" "g" Demo.demoParticipants =
        Except.ok rows :=
  ⟨by decide,
    (newGame_submission_validation 0 "" "g" Demo.demoParticipants
      (by decide)).1.mpr ⟨by decide, by decide⟩⟩

/-- C10: the recent-games list of either Statistics page version holds at
most 5 entries, is sorted newest first by `played_at`, and every included
entry is no older than any excluded one. -/
theorem recentGames_top_five :
    ∀ (includeInactive : Bool)
      (participations : List StatisticsPage.Participation)
      (oparts : List StatisticsOld.Participation),
      (StatisticsPage.recentGames includeInactive participations).length ≤ 5 ∧
      List.Sorted (SortFacts.byDesc StatisticsPage.RecentGame.played_at)
        (StatisticsPage.recentGames includeInactive participations) ∧
      (∀ x ∈ StatisticsPage.recentGames includeInactive participations,
        ∀ y ∈ (List.insertionSort
            (SortFacts.byDesc StatisticsPage.RecentGame.played_at)
            ((StatisticsPage.filteredParticipations includeInactive
              participations).map StatisticsPage.toRecentGame)).drop 5,
          y.played_at ≤ x.played_at) ∧
      (StatisticsOld.recentGames oparts).length ≤ 5 ∧
      List.Sorted (SortFacts.byDesc StatisticsOld.RecentGame.played_at)
        (StatisticsOld.recentGames oparts) ∧
      (∀ x ∈ StatisticsOld.recentGames oparts,
        ∀ y ∈ (List.insertionSort
            (SortFacts.byDesc StatisticsOld.RecentGame.played_at)
            (oparts.map StatisticsOld.toRecentGame)).drop 5,
          y.played_at ≤ x.played_at) := by
  intro includeInactive participations oparts
  have hs1 : List.Sorted (SortFacts.byDesc StatisticsPage.RecentGame.played_at)
      (List.insertionSort (SortFacts.byDesc StatisticsPage.RecentGame.played_at)
        ((StatisticsPage.filteredParticipations includeInactive
          participations).map StatisticsPage.toRecentGame)) :=
    List.sorted_insertionSort _ _
  have hs2 : List.Sorted (SortFacts.byDesc StatisticsOld.RecentGame.played_at)
      (List.insertionSort (SortFacts.byDesc StatisticsOld.RecentGame.played_at)
        (oparts.map StatisticsOld.toRecentGame)) :=
    List.sorted_insertionSort _ _
  refine ⟨?_, ?_, ?_, ?_, ?_, ?_⟩
  · rw [StatisticsPage.recentGames, List.length_take]
    omega
  · exact List.Pairwise.sublist (List.take_sublist 5 _) hs1
  · intro x hx y hy
    exact SortFacts.pairwise_take_drop hs1 5 x hx y hy
  · rw [StatisticsOld.recentGames, List.length_take]
    omega
  · exact List.Pairwise.sublist (List.take_sublist 5 _) hs2
  · intro x hx y hy
    exact SortFacts.pairwise_take_drop hs2 5 x hx y hy

theorem mostPlayedDeck_eq_firstBest (values : List StatisticsPage.DeckStat) :
    StatisticsPage.mostPlayedDeck values =
      (SortFacts.firstBest (SortFacts.byDesc StatisticsPage.DeckStat.gamesPlayed)
        values).map StatisticsPage.toPlayedSummary := by
  rw [StatisticsPage.mostPlayedDeck, List.head?_map,
    SortFacts.head?_insertionSort]

theorem leastPlayedDeck_eq_firstBest (values : List StatisticsPage.DeckStat) :
    StatisticsPage.leastPlayedDeck values =
      (SortFacts.firstBest (SortFacts.byAsc StatisticsPage.DeckStat.gamesPlayed)
        values).map StatisticsPage.toPlayedSummary := by
  rw [StatisticsPage.leastPlayedDeck, List.head?_map,
    SortFacts.head?_insertionSort]

theorem bumpDeckCount_fold (gs : List PlayersPage.PlayerGame) :
    ∀ (acc : List (String × Nat)) (g : String → Nat),
      (∀ e ∈ acc, e.2 = g e.1) →
      (∀ n, (∀ e ∈ acc, e.1 ≠ n) → g n = 0) →
      ∀ e ∈ gs.foldl (fun a x => PlayersPage.bumpDeckCount a x.deck.name) acc,
        e.2 = g e.1 + gs.countP (fun x => decide (x.deck.name = e.1)) := by
  induction gs with
  | nil =>
    intro acc g H1 _ e he
    rw [List.foldl_nil] at he
    simpa using H1 e he
  | cons x gs ih =>
    intro acc g H1 H2 e he
    rw [List.foldl_cons] at he
    have H1' : ∀ e' ∈ PlayersPage.bumpDeckCount acc x.deck.name,
        e'.2 = g e'.1 + if x.deck.name = e'.1 then 1 else 0 := by
      intro e' he'
      rw [PlayersPage.bumpDeckCount] at he'
      by_cases hmem : acc.any (fun e => e.1 == x.deck.name) = true
      · rw [if_pos hmem] at he'
        obtain ⟨e0, he0, rfl⟩ := List.mem_map.mp he'
        have hv := H1 e0 he0
        by_cases hk : e0.1 = x.deck.name
        · rw [if_pos hk]
          show e0.2 + 1 = g e0.1 + if x.deck.name = e0.1 then 1 else 0
          rw [if_pos hk.symm]
          omega
        · rw [if_neg hk]
          show e0.2 = g e0.1 + if x.deck.name = e0.1 then 1 else 0
          rw [if_neg (fun hcon => hk hcon.symm)]
          omega
      · rw [if_neg hmem] at he'
        have hall : ∀ e ∈ acc, e.1 ≠ x.deck.name := by
          intro e0 he0 hcon
          simp only [Bool.not_eq_true, List.any_eq_false] at hmem
          have hb := hmem e0 he0
          rw [hcon] at hb
          simp at hb
        rcases List.mem_append.mp he' with h1 | h1
        · have hv := H1 e' h1
          rw [if_neg (fun hcon => (hall e' h1) hcon.symm)]
          omega
        · have he'' : e' = (x.deck.name, 1) := by simpa using h1
          subst he''
          show 1 = g x.deck.name + if x.deck.name = x.deck.name then 1 else 0
          rw [if_pos rfl]
          have hg0 : g x.deck.name = 0 := H2 x.deck.name hall
          omega
    have H2' : ∀ n,
        (∀ e' ∈ PlayersPage.bumpDeckCount acc x.deck.name, e'.1 ≠ n) →
        g n + (if x.deck.name = n then 1 else 0) = 0 := by
      intro n hn
      have hxn : ¬ x.deck.name = n := by
        intro hcon
        subst hcon
        by_cases hmem : acc.any (fun e => e.1 == x.deck.name) = true
        · obtain ⟨e0, he0, hb⟩ := List.any_eq_true.mp hmem
          have hkey : e0.1 = x.deck.name := by simpa using hb
          have hmm : (if e0.1 = x.deck.name then (e0.1, e0.2 + 1) else e0) ∈
              PlayersPage.bumpDeckCount acc x.deck.name := by
            rw [PlayersPage.bumpDeckCount, if_pos hmem]
            exact List.mem_map_of_mem _ he0
          have hcontra := hn _ hmm
          rw [if_pos hkey] at hcontra
          exact hcontra hkey
        · have hmm : (x.deck.name, 1) ∈
              PlayersPage.bumpDeckCount acc x.deck.name := by
            rw [PlayersPage.bumpDeckCount, if_neg hmem]
            exact List.mem_append_right _ (by simp)
          exact (hn _ hmm) rfl
      have hnacc : ∀ e ∈ acc, e.1 ≠ n := by
        intro e0 he0
        by_cases hmem : acc.any (fun e => e.1 == x.deck.name) = true
        · have hmm : (if e0.1 = x.deck.name then (e0.1, e0.2 + 1) else e0) ∈
              PlayersPage.bumpDeckCount acc x.deck.name := by
            rw [PlayersPage.bumpDeckCount, if_pos hmem]
            exact List.mem_map_of_mem _ he0
          have hthis := hn _ hmm
          by_cases hk : e0.1 = x.deck.name
          · rw [if_pos hk] at hthis; exact hthis
          · rw [if_neg hk] at hthis; exact hthis
        · have hmm : e0 ∈ PlayersPage.bumpDeckCount acc x.deck.name := by
            rw [PlayersPage.bumpDeckCount, if_neg hmem]
            exact List.mem_append_left _ he0
          exact hn e0 hmm
      rw [if_neg hxn]
      have := H2 n hnacc
      omega
    have hmain := ih (PlayersPage.bumpDeckCount acc x.deck.name)
      (fun n => g n + if x.deck.name = n then 1 else 0) H1' H2' e he
    dsimp only at hmain
    rw [hmain, List.countP_cons]
    by_cases hx : x.deck.name = e.1
    · rw [if_pos hx, decide_eq_true hx, if_pos rfl]
      omega
    · rw [if_neg hx, decide_eq_false hx, if_neg Bool.false_ne_true]
      omega

/-- Each entry of the Players page's per-player deck grouping counts the
player's games with that deck name. -/
theorem deckCounts_grouping (games : List PlayersPage.PlayerGame) :
    ∀ e ∈ PlayersPage.deckCounts games,
      e.2 = games.countP (fun x => decide (x.deck.name = e.1)) := by
  intro e he
  have := bumpDeckCount_fold games [] (fun _ => 0) (by simp) (fun _ _ => rfl)
    e he
  simpa using this

/-- C4: over a nonempty grouped deck-stats list, the reported most-played
deck has a maximal games count and is the first such in grouping order, the
least-played deck a minimal count and first such; each grouped entry counts
the participations of its deck; and the Players page's favorite decks are
the top 3 of the stable descending sort by count. -/
theorem deck_ranking_spec :
    ∀ (includeInactive : Bool) (decks : List StatisticsPage.DeckRow)
      (participations : List StatisticsPage.Participation)
      (games : List PlayersPage.PlayerGame),
      StatisticsPage.deckStatsValues includeInactive decks participations ≠
        [] →
      (∃ m, m ∈ StatisticsPage.deckStatsValues includeInactive decks
          participations ∧
        StatisticsPage.mostPlayedDeck
            (StatisticsPage.deckStatsValues includeInactive decks
              participations) = some (StatisticsPage.toPlayedSummary m) ∧
        (∀ x ∈ StatisticsPage.deckStatsValues includeInactive decks
            participations, x.gamesPlayed ≤ m.gamesPlayed) ∧
        (∃ l₁ l₂, StatisticsPage.deckStatsValues includeInactive decks
            participations = l₁ ++ m :: l₂ ∧
          ∀ x ∈ l₁, x.gamesPlayed < m.gamesPlayed)) ∧
      (∃ m, m ∈ StatisticsPage.deckStatsValues includeInactive decks
          participations ∧
        StatisticsPage.leastPlayedDeck
            (StatisticsPage.deckStatsValues includeInactive decks
              participations) = some (StatisticsPage.toPlayedSummary m) ∧
        (∀ x ∈ StatisticsPage.deckStatsValues includeInactive decks
            participations, m.gamesPlayed ≤ x.gamesPlayed) ∧
        (∃ l₁ l₂, StatisticsPage.deckStatsValues includeInactive decks
            participations = l₁ ++ m :: l₂ ∧
          ∀ x ∈ l₁, m.gamesPlayed < x.gamesPlayed)) ∧
      (∀ e ∈ StatisticsPage.deckStats includeInactive decks participations,
        e.2.gamesPlayed =
          (StatisticsPage.filteredParticipations includeInactive
            participations).countP (fun p => decide (e.1 = p.deck.id))) ∧
      (PlayersPage.favoriteDecks games).length ≤ 3 ∧
      List.Sorted (SortFacts.byDesc PlayersPage.FavoriteDeck.gamesPlayed)
        (PlayersPage.favoriteDecks games) ∧
      (∀ x ∈ PlayersPage.favoriteDecks games,
        ∀ y ∈ (List.insertionSort
            (SortFacts.byDesc PlayersPage.FavoriteDeck.gamesPlayed)
            (PlayersPage.favoriteDeckList games)).drop 3,
          y.gamesPlayed ≤ x.gamesPlayed) ∧
      (∀ k, (List.insertionSort
            (SortFacts.byDesc PlayersPage.FavoriteDeck.gamesPlayed)
            (PlayersPage.favoriteDeckList games)).filter
          (fun d => d.gamesPlayed == k) =
        (PlayersPage.favoriteDeckList games).filter
          (fun d => d.gamesPlayed == k)) ∧
      (∀ e ∈ PlayersPage.deckCounts games,
        e.2 = games.countP (fun x => decide (x.deck.name = e.1))) := by
  intro includeInactive decks participations games hne
  have hsfav : List.Sorted
      (SortFacts.byDesc PlayersPage.FavoriteDeck.gamesPlayed)
      (List.insertionSort
        (SortFacts.byDesc PlayersPage.FavoriteDeck.gamesPlayed)
        (PlayersPage.favoriteDeckList games)) :=
    List.sorted_insertionSort _ _
  refine ⟨?_, ?_, ?_, ?_, ?_, ?_, ?_, deckCounts_grouping games⟩
  · obtain ⟨m, hm⟩ := SortFacts.firstBest_isSome
      (r := SortFacts.byDesc StatisticsPage.DeckStat.gamesPlayed) hne
    refine ⟨m, SortFacts.firstBest_mem hm, ?_, ?_, ?_⟩
    · rw [mostPlayedDeck_eq_firstBest, hm]
      rfl
    · intro x hx
      exact SortFacts.firstBest_best hm x hx
    · obtain ⟨l₁, l₂, hsplit, hfirst⟩ := SortFacts.firstBest_first hm
      refine ⟨l₁, l₂, hsplit, ?_⟩
      intro x hx
      have := hfirst x hx
      rw [SortFacts.byDesc] at this
      omega
  · obtain ⟨m, hm⟩ := SortFacts.firstBest_isSome
      (r := SortFacts.byAsc StatisticsPage.DeckStat.gamesPlayed) hne
    refine ⟨m, SortFacts.firstBest_mem hm, ?_, ?_, ?_⟩
    · rw [leastPlayedDeck_eq_firstBest, hm]
      rfl
    · intro x hx
      exact SortFacts.firstBest_best hm x hx
    · obtain ⟨l₁, l₂, hsplit, hfirst⟩ := SortFacts.firstBest_first hm
      refine ⟨l₁, l₂, hsplit, ?_⟩
      intro x hx
      have := hfirst x hx
      rw [SortFacts.byAsc] at this
      omega
  · intro e he
    rw [StatisticsPage.deckStats_eq] at he
    obtain ⟨d, hd, rfl⟩ := List.mem_map.mp he
    show (StatisticsPage.applyToStat d.id _ _).gamesPlayed = _
    rw [StatisticsPage.applyToStat_gamesPlayed]
    simp
  · rw [PlayersPage.favoriteDecks, List.length_take]
    omega
  · exact List.Pairwise.sublist (List.take_sublist 3 _) hsfav
  · intro x hx y hy
    exact SortFacts.pairwise_take_drop hsfav 3 x hx y hy
  · intro k
    exact SortFacts.insertionSort_filter_key
      PlayersPage.FavoriteDeck.gamesPlayed k (PlayersPage.favoriteDeckList games)

theorem deck_ranking_spec_witness :
    StatisticsPage.deckStatsValues true [Demo.deckA] Demo.demoParts ≠ [] ∧
      ∃ m, m ∈ StatisticsPage.deckStatsValues true [Demo.deckA]
          Demo.demoParts ∧
        StatisticsPage.mostPlayedDeck
            (StatisticsPage.deckStatsValues true [Demo.deckA]
              Demo.demoParts) = some (StatisticsPage.toPlayedSummary m) ∧
        (∀ x ∈ StatisticsPage.deckStatsValues true [Demo.deckA]
            Demo.demoParts, x.gamesPlayed ≤ m.gamesPlayed) ∧
        (∃ l₁ l₂, StatisticsPage.deckStatsValues true [Demo.deckA]
            Demo.demoParts = l₁ ++ m :: l₂ ∧
          ∀ x ∈ l₁, x.gamesPlayed < m.gamesPlayed) :=
  ⟨by decide,
    (deck_ranking_spec true [Demo.deckA] Demo.demoParts [] (by decide)).1⟩

/-- C3: a deck's entry appears in the inactive-decks summary iff the deck has
no considered participation at all or its most recent participation is
strictly more than 30 whole days old; at exactly 30 days (or fewer) it is not
listed. -/
theorem deck_inactivity_detection :
    ∀ (now : Nat) (includeInactive : Bool)
      (decks : List StatisticsPage.DeckRow)
      (participations : List StatisticsPage.Participation),
      ∀ e ∈ StatisticsPage.deckStats includeInactive decks participations,
        ((StatisticsPage.toInactiveEntry now e.2 ∈
            StatisticsPage.pageInactiveSummary now includeInactive decks
              participations) ↔
          ((∀ p ∈ StatisticsPage.filteredParticipations includeInactive
              participations, e.1 ≠ p.deck.id) ∨
            (∃ t, e.2.lastPlayed = some t ∧
              30 < StatisticsPage.differenceInDays now t))) ∧
        (∀ t, e.2.lastPlayed = some t →
          StatisticsPage.differenceInDays now t ≤ 30 →
          StatisticsPage.toInactiveEntry now e.2 ∉
            StatisticsPage.pageInactiveSummary now includeInactive decks
              participations) := by
  intro now includeInactive decks participations e he
  have hvals : e.2 ∈ StatisticsPage.deckStatsValues includeInactive decks
      participations := List.mem_map_of_mem (fun e => e.2) he
  rw [StatisticsPage.deckStats_eq] at he
  obtain ⟨d, hd, rfl⟩ := List.mem_map.mp he
  dsimp only at hvals ⊢
  have hiff1 : (StatisticsPage.toInactiveEntry now
      (StatisticsPage.applyToStat d.id
        { name := d.name, gamesPlayed := 0, wins := 0, lastPlayed := none }
        (StatisticsPage.filteredParticipations includeInactive
          participations)) ∈
      StatisticsPage.pageInactiveSummary now includeInactive decks
        participations) ↔
      StatisticsPage.isInactiveEntry (StatisticsPage.toInactiveEntry now
        (StatisticsPage.applyToStat d.id
          { name := d.name, gamesPlayed := 0, wins := 0, lastPlayed := none }
          (StatisticsPage.filteredParticipations includeInactive
            participations))) = true := by
    rw [StatisticsPage.pageInactiveSummary,
      StatisticsPage.mem_inactiveDecksSummary]
    exact and_iff_right (List.mem_map_of_mem _ hvals)
  have hnone : (StatisticsPage.applyToStat d.id
      { name := d.name, gamesPlayed := 0, wins := 0, lastPlayed := none }
      (StatisticsPage.filteredParticipations includeInactive
        participations)).lastPlayed = none ↔
      (∀ p ∈ StatisticsPage.filteredParticipations includeInactive
        participations, d.id ≠ p.deck.id) := by
    rw [StatisticsPage.applyToStat_lastPlayed_none]
    simp
  constructor
  · rw [hiff1, StatisticsPage.isInactiveEntry_toInactiveEntry, hnone]
  · intro t ht hle hmem
    rw [hiff1, StatisticsPage.isInactiveEntry_toInactiveEntry] at hmem
    rcases hmem with h1 | ⟨t', ht', hgt⟩
    · rw [ht] at h1
      cases h1
    · rw [ht] at ht'
      obtain rfl := Option.some.inj ht'
      omega

theorem deck_inactivity_detection_witness :
    ("a", Demo.demoStat) ∈
        StatisticsPage.deckStats true [Demo.deckA] Demo.demoParts ∧
      (StatisticsPage.toInactiveEntry Demo.demoNow Demo.demoStat ∈
        StatisticsPage.pageInactiveSummary Demo.demoNow true [Demo.deckA]
          Demo.demoParts) :=
  ⟨by decide,
    (deck_inactivity_detection Demo.demoNow true [Demo.deckA] Demo.demoParts
      ("a", Demo.demoStat) (by decide)).1.mpr
      (Or.inr ⟨86400000, by decide, by decide⟩)⟩

/-- C6: when any backend call of the Statistics or Players fetch errors, the
catch converts the thrown value to its display string (the message of an
`Error`, else "An error occurred") and the page's computed state is not
updated — it keeps its `useState` defaults. -/
theorem fetch_error_handling :
    ∀ (now : Nat) (includeInactive : Bool)
      (playerRes : Except StatisticsPage.ThrownValue StatisticsPage.PlayerIdRow)
      (decksRes : Except StatisticsPage.ThrownValue
        (List StatisticsPage.DeckRow))
      (participationsRes : Except StatisticsPage.ThrownValue
        (List StatisticsPage.Participation))
      (playersRes : Except StatisticsPage.ThrownValue
        (List PlayersPage.PlayersRow)),
      ((∃ e, playerRes = Except.error e ∨ decksRes = Except.error e ∨
          participationsRes = Except.error e) →
        StatisticsPage.statsAfterFetch now includeInactive playerRes decksRes
            participationsRes = StatisticsPage.initialStats ∧
        ∃ e, (playerRes = Except.error e ∨ decksRes = Except.error e ∨
            participationsRes = Except.error e) ∧
          (StatisticsPage.fetchStatistics now includeInactive playerRes
            decksRes participationsRes).2 =
            some (StatisticsPage.displayMessage e)) ∧
      (∀ e, playersRes = Except.error e →
        PlayersPage.playersAfterFetch now playersRes = [] ∧
        (PlayersPage.fetchPlayers now playersRes).2 =
          some (StatisticsPage.displayMessage e)) := by
  intro now includeInactive playerRes decksRes participationsRes playersRes
  constructor
  · rintro ⟨e, he | he | he⟩
    · subst he
      exact ⟨rfl, e, Or.inl rfl, rfl⟩
    · subst he
      cases playerRes with
      | error e' => exact ⟨rfl, e', Or.inl rfl, rfl⟩
      | ok _ => exact ⟨rfl, e, Or.inr (Or.inl rfl), rfl⟩
    · subst he
      cases playerRes with
      | error e' => exact ⟨rfl, e', Or.inl rfl, rfl⟩
      | ok _ =>
        cases decksRes with
        | error e' => exact ⟨rfl, e', Or.inr (Or.inl rfl), rfl⟩
        | ok _ => exact ⟨rfl, e, Or.inr (Or.inr rfl), rfl⟩
  · intro e he
    subst he
    exact ⟨rfl, rfl⟩
